import Mathlib

/-
Verification of the Customer-Churn-Analysis repository.

Shallow embedding of the two scripts:
  * generate_data.py  : record synthesis, defect injection, cleaning pipeline
  * churn_analysis.py : schema validation, correlation analysis, plotting frame effects

Dates are embedded as integer day numbers (day 0 = 2021-01-01).  Python floats
carrying exact decimal constants are embedded as rationals.  A raw join_date may
be stored either as a datetime (ISO) or as an MM/DD/YYYY string; the embedding
keeps the day number and tags the textual format.
-/

namespace Churn

/-- Day number of the fixed analysis cutoff 2024-09-30 (epoch 2021-01-01 = 0). -/
def cutoffDay : ℤ := 1368

/-- Day number of 2021-01-01, first possible join date. -/
def joinStartDay : ℤ := 0

/-- Day number of 2024-06-30, last possible join date. -/
def joinEndDay : ℤ := 1276

/-- A join_date cell: either a parsed datetime (ISO text) or an MM/DD/YYYY string,
both carrying the calendar day they denote. -/
inductive DateVal where
  | iso (day : ℤ)
  | us (day : ℤ)
deriving DecidableEq

/-- The calendar day denoted by a date cell. -/
def DateVal.day : DateVal → ℤ
  | .iso d => d
  | .us d => d

/-- One customer record, with the fields built by `generate_customers`.
Nullable columns are `Option`s. -/
structure Row where
  customer_id : ℕ
  age : ℕ
  age_group : String
  region : Option String
  plan_name : String
  plan_price : Option ℚ
  payment_method : String
  join_date : DateVal
  tenure_months : ℤ
  avg_monthly_logins : ℚ
  avg_session_minutes : ℚ
  support_tickets : ℕ
  billing_issues_count : ℕ
  is_churned : Bool
  cancellation_date : Option ℤ
  cancellation_reason : Option String
  customer_lifetime_days : ℤ
deriving DecidableEq

/-- Embedding of `calculate_churn_probability` (generate_data.py, lines 86-136):
sequential accumulation starting from the 0.10 base rate, capped at 0.95. -/
def calculate_churn_probability (row : Row) : ℚ :=
  let prob : ℚ := 0.10
  let prob := if row.avg_monthly_logins < 3 then prob + 0.35
    else if row.avg_monthly_logins < 8 then prob + 0.15 else prob
  let prob := if row.plan_name = "Premium" then prob + 0.08
    else if row.plan_name = "Standard" then prob + 0.04 else prob
  let prob := if row.tenure_months < 6 then prob + 0.20
    else if row.tenure_months < 12 then prob + 0.08 else prob
  let prob := if row.billing_issues_count > 0 then prob + 0.12 else prob
  let prob := if row.age_group = "18-24" ∨ row.age_group = "25-34" then prob + 0.06 else prob
  let prob := if row.region = some "International" then prob + 0.10 else prob
  min prob 0.95

/-- The SUBSCRIPTION_PLANS lookup table (name to price): 9.99, 15.99, 22.99,
written as explicit fractions. -/
def SUBSCRIPTION_PLANS : List (String × ℚ) :=
  [("Basic", mkRat 999 100), ("Standard", mkRat 1599 100), ("Premium", mkRat 2299 100)]

/-- Dictionary access on the plan table; `none` when the name is not a key. -/
def price_lookup (plan : String) : Option ℚ :=
  SUBSCRIPTION_PLANS.lookup plan

/-- The six sampling regions. -/
def REGIONS : List String :=
  ["Northeast", "Southeast", "Midwest", "Southwest", "West", "International"]

/-- The six cancellation reason categories. -/
def CANCELLATION_REASONS : List String :=
  ["Too Expensive", "Not Enough Content", "Technical Issues",
   "Switching to Competitor", "No Longer Needed", "Found Better Alternative"]

/-- Embedding of `random_date` (generate_data.py, lines 79-83): the random draw
`r = random.randint(0, (end-start).days)` is passed in explicitly; callers
guarantee `0 ≤ r ≤ end - start`. -/
def random_date (start : ℤ) (r : ℤ) : ℤ := start + r

/-- Embedding of one iteration of the loop body of `generate_customers`
(generate_data.py, lines 163-229).  All random draws are explicit arguments:
the sampled categorical/numeric attributes, the Bernoulli churn outcome
`churned` (`random.random() < churn_prob`), the cancellation-date draw
`cancelDraw`, and the reason index `reasonIdx` of `random.choice`.
`tenure_months = (cutoff - join_date).days // 30`; Python floor division with
the positive divisor 30 is Euclidean division, Lean's `/` on `ℤ`. -/
def generate_customer_row (i : ℕ) (age_group : String) (age : ℕ)
    (region plan_name payment_method : String) (joinDay : ℤ) (logins sess : ℚ)
    (tickets billing : ℕ) (churned : Bool) (cancelDraw : ℤ) (reasonIdx : ℕ) : Row :=
  let tenure : ℤ := (cutoffDay - joinDay) / 30
  let base : Row :=
    { customer_id := i
      age := age
      age_group := age_group
      region := some region
      plan_name := plan_name
      plan_price := price_lookup plan_name
      payment_method := payment_method
      join_date := .iso joinDay
      tenure_months := tenure
      avg_monthly_logins := logins
      avg_session_minutes := sess
      support_tickets := tickets
      billing_issues_count := billing
      is_churned := false
      cancellation_date := none
      cancellation_reason := none
      customer_lifetime_days := 0 }
  if churned then
    let cancelDate := random_date (joinDay + 30) cancelDraw
    { base with
      is_churned := true
      cancellation_date := some cancelDate
      cancellation_reason := some (CANCELLATION_REASONS.getD reasonIdx "")
      customer_lifetime_days := cancelDate - joinDay }
  else
    { base with customer_lifetime_days := cutoffDay - joinDay }

/-
The cleaning pipeline `clean_data` (generate_data.py, lines 291-366).
Steps 2-6 act column-wise but are per-row independent, so they are embedded as
row transformers mapped over the deduplicated table.  Python string methods
`str.title` / `str.lower` are embedded for the ASCII letters (the only
characters occurring in this dataset's columns).
-/

/-- Is the character an ASCII cased letter (the word-boundary test of
Python `str.title`). -/
def isCased (c : Char) : Bool :=
  decide ((65 ≤ c.toNat ∧ c.toNat ≤ 90) ∨ (97 ≤ c.toNat ∧ c.toNat ≤ 122))

/-- Python `str.lower` on the character list of a string. -/
def pyLower (s : String) : String :=
  String.mk (s.toList.map Char.toLower)

/-- Python `str.title`, character by character: a cased character is
uppercased after a non-cased character and lowercased after a cased one. -/
def titleAux : Bool → List Char → List Char
  | _, [] => []
  | prev, c :: cs => (if prev then c.toLower else c.toUpper) :: titleAux (isCased c) cs

/-- Python `str.title` on a string. -/
def pyTitle (s : String) : String :=
  String.mk (titleAux false s.toList)

/-- Cleaning step 2: normalize plan_name to title case. -/
def step2_title (r : Row) : Row :=
  { r with plan_name := pyTitle r.plan_name }

/-- Cleaning step 3: parse join_date (either text format) into a datetime;
the day number is preserved, the format tag becomes canonical.  Parsing
cancellation_date with errors="coerce" is the identity here because the raw
table stores it as an already-typed optional date. -/
def step3_dates (r : Row) : Row :=
  { r with join_date := .iso r.join_date.day }

/-- Cleaning step 4: fill a null plan_price from the plan lookup;
`price_lookup.get(plan_name, row_price)` with the null row price as default. -/
def step4_price (r : Row) : Row :=
  match r.plan_price with
  | none => { r with plan_price := price_lookup r.plan_name }
  | some _ => r

/-- Cleaning step 5: fill a null region with "Unknown". -/
def step5_region (r : Row) : Row :=
  { r with region := some (r.region.getD "Unknown") }

/-- Cleaning step 6: if cancellation_date is present and earlier than
join_date, null both cancellation fields and mark the row not churned. -/
def step6_dates (r : Row) : Row :=
  match r.cancellation_date with
  | some c =>
      if c < r.join_date.day then
        { r with cancellation_date := none, is_churned := false, cancellation_reason := none }
      else r
  | none => r

/-- Steps 2-6 composed, as applied to each surviving row. -/
def normalizeRow (r : Row) : Row :=
  step6_dates (step5_region (step4_price (step3_dates (step2_title r))))

/-- Cleaning step 1: pandas drop_duplicates — keep the first occurrence of
each row, preserving order.  `seen` accumulates rows already emitted. -/
def dedupAux {α : Type} [DecidableEq α] (seen : List α) : List α → List α
  | [] => []
  | r :: rs => if r ∈ seen then dedupAux seen rs else r :: dedupAux (r :: seen) rs

/-- pandas `DataFrame.drop_duplicates()`. -/
def drop_duplicates (t : List Row) : List Row :=
  dedupAux [] t

/-- The whole cleaning pipeline `clean_data`. -/
def clean_data (t : List Row) : List Row :=
  (drop_duplicates t).map normalizeRow

/-
The defect injector `add_dirty_data` (generate_data.py, lines 236-288).
Which rows each corruption pass touches is decided by an externally seeded
RNG, so the injector is embedded relationally: a dirty row is some generated
row with any combination of the four row-level defects applied (plan_name
lower-cased, plan_price nulled, region nulled, join_date reformatted), and a
dirty table is any list of such rows — duplication appends exact copies,
which the list form covers.
-/

/-- Apply the four per-row corruption passes of `add_dirty_data`; each flag
tells whether the row's index was drawn by the corresponding pass. -/
def corrupt (g : Row) (lc np nr rf : Bool) : Row :=
  { g with
    plan_name := if lc then pyLower g.plan_name else g.plan_name
    plan_price := if np then none else g.plan_price
    region := if nr then none else g.region
    join_date := if rf then .us g.join_date.day else g.join_date }

/-- The shape invariants of every record built by `generate_customers`
(established below for `generate_customer_row`). -/
def GeneratedRow (g : Row) : Prop :=
  (g.plan_name = "Basic" ∨ g.plan_name = "Standard" ∨ g.plan_name = "Premium") ∧
  g.plan_price = price_lookup g.plan_name ∧
  (∃ s, g.region = some s ∧ s ∈ REGIONS) ∧
  (∃ j, g.join_date = .iso j) ∧
  (if g.is_churned then
      ∃ c reason, g.cancellation_date = some c ∧ g.cancellation_reason = some reason ∧
        g.join_date.day + 30 ≤ c
    else g.cancellation_date = none ∧ g.cancellation_reason = none)

/-- A row of the raw (dirty) table: some generated row with some subset of
the per-row defects applied. -/
def DirtyOf (r : Row) : Prop :=
  ∃ g lc np nr rf, GeneratedRow g ∧ r = corrupt g lc np nr rf

/-
churn_analysis.py.  The loaded CSV is embedded column-oriented: an ordered
list of named columns of cells.  A cell is a number, a string, or NaN/null.
-/

/-- One DataFrame cell. -/
inductive Val where
  | num (q : ℚ)
  | str (s : String)
  | null
deriving DecidableEq

/-- A pandas DataFrame: ordered named columns. -/
structure DataFrame where
  cols : List (String × List Val)
deriving DecidableEq

/-- The column labels, in order. -/
def colNames (df : DataFrame) : List String :=
  df.cols.map Prod.fst

/-- The cells of a named column (first column with that label). -/
def colValues (df : DataFrame) (name : String) : List Val :=
  (df.cols.lookup name).getD []

/-- The required columns checked by `load_data` (churn_analysis.py, lines 71-76). -/
def required_cols : List String :=
  ["customer_id", "is_churned", "plan_name", "plan_price",
   "region", "age_group", "tenure_months",
   "avg_monthly_logins", "avg_session_minutes",
   "support_tickets", "billing_issues_count"]

/-- Embedding of `load_data` (churn_analysis.py, lines 57-83) after the CSV
read: collect the required columns absent from the frame and raise
(`Except.error`, carrying the missing names) when any is absent, otherwise
return the frame unchanged. -/
def load_data (df : DataFrame) : Except (List String) DataFrame :=
  let missing := required_cols.filter (fun c => decide (c ∉ colNames df))
  if missing.isEmpty then .ok df else .error missing

/-- The 7 numeric feature columns of `correlation_analysis`
(churn_analysis.py, lines 167-175). -/
def numeric_cols : List String :=
  ["plan_price", "tenure_months", "avg_monthly_logins", "avg_session_minutes",
   "support_tickets", "billing_issues_count", "customer_lifetime_days"]

/-- Numeric cells of a column. -/
def numsOf (vs : List Val) : List ℚ :=
  vs.filterMap (fun v => match v with | .num q => some q | _ => none)

/-- n·Σxy − Σx·Σy, the covariance numerator scaled by n². -/
def covN (xs ys : List ℚ) : ℚ :=
  (xs.length : ℚ) * (List.zipWith (fun a b => a * b) xs ys).sum - xs.sum * ys.sum

/-- n·Σx² − (Σx)², the variance scaled by n²; zero exactly when the Pearson
correlation against this column is undefined (NaN). -/
def varN (xs : List ℚ) : ℚ :=
  (xs.length : ℚ) * (xs.map (fun a => a * a)).sum - xs.sum * xs.sum

/-- Pearson correlation of two columns, represented exactly in ℚ by its
signed square r·|r| = cov·|cov|/(var_x·var_y) (a strictly monotone encoding
of r, so sign, magnitude comparisons and ties are faithful); `none` is NaN,
produced when either column has zero variance. -/
def corrRep (xs ys : List ℚ) : Option ℚ :=
  if varN xs = 0 ∨ varN ys = 0 then none
  else some (covN xs ys * |covN xs ys| / (varN xs * varN ys))

/-- The Pearson correlation of a named feature against is_churned. -/
def corrWithChurn (df : DataFrame) (c : String) : Option ℚ :=
  corrRep (numsOf (colValues df c)) (numsOf (colValues df "is_churned"))

/-- The correlation Series returned by `correlation_analysis`
(churn_analysis.py, line 178): one entry per numeric feature, input order. -/
def correlations (df : DataFrame) : List (String × Option ℚ) :=
  numeric_cols.map (fun c => (c, corrWithChurn df c))

/-- Sort key of `correlations.abs()`: |r·\x7br\x7d| = r². -/
def rankKey (p : String × Option ℚ) : ℚ :=
  |p.2.getD 0|

/-- Insert into a list sorted descending by `rankKey`, after every entry of
greater-or-equal key (so equal keys keep input order). -/
def insertDesc (p : String × Option ℚ) :
    List (String × Option ℚ) → List (String × Option ℚ)
  | [] => [p]
  | q :: qs => if rankKey q ≤ rankKey p then p :: q :: qs else q :: insertDesc p qs

/-- Stable insertion sort, descending by `rankKey`. -/
def sortDesc : List (String × Option ℚ) → List (String × Option ℚ)
  | [] => []
  | p :: ps => insertDesc p (sortDesc ps)

/-- Embedding of `correlations.abs().sort_values(ascending=False)`
(churn_analysis.py, line 179): pandas argsorts the non-NaN values (stably:
numpy quicksort is insertion sort below 16 elements, and the descending
order double-reverses around it) and places NaNs last (na_position="last"). -/
def ranking (df : DataFrame) : List (String × Option ℚ) :=
  sortDesc ((correlations df).filter (fun p => p.2.isSome))
    ++ (correlations df).filter (fun p => !p.2.isSome)

/-- Input-order comparison of two correlation entries: the position of their
features in the fixed feature list. -/
def idxLt (p q : String × Option ℚ) : Prop :=
  numeric_cols.indexOf p.1 < numeric_cols.indexOf q.1

/-- The order the ranking must satisfy between an earlier entry p and a
later entry q: defined correlations come before NaNs; among defined ones the
absolute value decreases, with exact ties kept in input order; NaNs keep
input order among themselves. -/
def rankRel (p q : String × Option ℚ) : Prop :=
  if p.2.isSome = true then
    if q.2.isSome = true then
      rankKey q < rankKey p ∨ (rankKey q = rankKey p ∧ idxLt p q)
    else True
  else
    if q.2.isSome = true then False else idxLt p q

/-- pandas column assignment df[name] = vs: replace the column in place when
the label exists, else append it on the right. -/
def setCol (df : DataFrame) (name : String) (vs : List Val) : DataFrame :=
  if (colNames df).contains name then
    ⟨df.cols.map (fun p => if p.1 = name then (p.1, vs) else p)⟩
  else ⟨df.cols ++ [(name, vs)]⟩

/-- pd.cut with explicit right-closed bin edges and labels; values outside
every bin (and non-numeric cells) become NaN. -/
def cutLabel (edges : List ℚ) (labels : List String) : Val → Val
  | .num q => cutFind edges labels q
  | _ => .null
where
  cutFind : List ℚ → List String → ℚ → Val
    | lo :: hi :: es, lab :: labs, q =>
        if lo < q ∧ q ≤ hi then .str lab else cutFind (hi :: es) labs q
    | _, _, _ => .null

/-- The login_tier column of `plot_top3_factors` (churn_analysis.py, 249-253). -/
def loginTierCol (df : DataFrame) : List Val :=
  (colValues df "avg_monthly_logins").map
    (cutLabel [0, 3, 8, 15, 100]
      ["Very Low\n(<3/mo)", "Low\n(3-7/mo)", "Medium\n(8-14/mo)", "High\n(15+/mo)"])

/-- The tenure_tier column of `plot_top3_factors` (churn_analysis.py, 266-269). -/
def tenureTierCol (df : DataFrame) : List Val :=
  (colValues df "tenure_months").map
    (cutLabel [0, 3, 6, 12, 24, 100]
      ["0-3\nmonths", "3-6\nmonths", "6-12\nmonths", "1-2\nyears", "2+\nyears"])

/-- The billing_tier column of `plot_top3_factors` (churn_analysis.py, 283-285):
x == 0 → "No Issues", x == 1 → "1 Issue", anything else (2+, NaN, non-numeric,
as in Python equality) → "2+ Issues". -/
def billingTierCol (df : DataFrame) : List Val :=
  (colValues df "billing_issues_count").map (fun v =>
    .str (if v = .num 0 then "No Issues" else if v = .num 1 then "1 Issue" else "2+ Issues"))

/-- pd.cut(col, bins=10) of `plot_churn_by_engagement` (churn_analysis.py,
line 389): ten equal-width bins over the observed range; the interval label
of a cell is represented by its bin index. -/
def loginBinCol (df : DataFrame) : List Val :=
  let qs := numsOf (colValues df "avg_monthly_logins")
  let lo := qs.foldr min (qs.headD 0)
  let hi := qs.foldr max (qs.headD 0)
  let width := (hi - lo) / 10
  (colValues df "avg_monthly_logins").map (fun v =>
    match v with
    | .num q => if width = 0 then .num 0 else .num (min 9 ⌊(q - lo) / width⌋)
    | _ => .null)

/-- Frame effect of `print_summary` (churn_analysis.py, 102-133): the body
only reads df (describe/value_counts/isnull), it assigns no column. -/
def print_summary_df (df : DataFrame) : DataFrame := df

/-- Frame effect of `correlation_analysis` (140-192): reads columns, builds
a fresh Series, assigns no column of df. -/
def correlation_analysis_df (df : DataFrame) : DataFrame := df

/-- Frame effect of `plot_correlation_heatmap` (195-225): reads only. -/
def plot_correlation_heatmap_df (df : DataFrame) : DataFrame := df

/-- Frame effect of `plot_churn_by_plan` (308-345): groupby on a copy,
assigns no column of df. -/
def plot_churn_by_plan_df (df : DataFrame) : DataFrame := df

/-- Frame effect of `plot_churn_by_region` (348-374): reads only. -/
def plot_churn_by_region_df (df : DataFrame) : DataFrame := df

/-- Frame effect of `generate_text_report` (423-488): reads only. -/
def generate_text_report_df (df : DataFrame) : DataFrame := df

/-- Frame effect of `plot_top3_factors` (churn_analysis.py, 232-301): the
three in-place tier-column assignments, in source order. -/
def plot_top3_factors (df : DataFrame) : DataFrame :=
  let df1 := setCol df "login_tier" (loginTierCol df)
  let df2 := setCol df1 "tenure_tier" (tenureTierCol df1)
  setCol df2 "billing_tier" (billingTierCol df2)

/-- Frame effect of `plot_churn_by_engagement` (churn_analysis.py, 377-416):
the in-place login_bin assignment. -/
def plot_churn_by_engagement (df : DataFrame) : DataFrame :=
  setCol df "login_bin" (loginBinCol df)

/-- Rows on which the per-row cleaning steps are no-ops: title-cased plan
name, parsed join date, a price fillable only if its plan is known, a
non-null region, and no cancellation before the join. -/
def NormalRow (r : Row) : Prop :=
  pyTitle r.plan_name = r.plan_name ∧
  r.join_date = .iso r.join_date.day ∧
  (r.plan_price = none → price_lookup r.plan_name = none) ∧
  (∃ s, r.region = some s) ∧
  (∀ c, r.cancellation_date = some c → ¬ c < r.join_date.day)

/-- A generated row used by the counterexamples: plan Basic, not churned. -/
def ceRowA : Row :=
  { customer_id := 1
    age := 30
    age_group := "25-34"
    region := some "West"
    plan_name := "Basic"
    plan_price := some (mkRat 999 100)
    payment_method := "PayPal"
    join_date := .iso 100
    tenure_months := 42
    avg_monthly_logins := 5
    avg_session_minutes := 40
    support_tickets := 0
    billing_issues_count := 0
    is_churned := false
    cancellation_date := none
    cancellation_reason := none
    customer_lifetime_days := 1268 }

/-- The same row with the case-folding defect applied to plan_name, as the
injector does on a duplicated row: distinct raw rows that the cleaning steps
normalize to the same row. -/
def ceRowB : Row :=
  { ceRowA with plan_name := "basic" }

/-- A dirty table reachable from the injector model: an original row and its
appended duplicate whose plan_name was lower-cased. -/
def ceTable : List Row :=
  [ceRowA, ceRowB]

/-- A frame carrying exactly the required columns (no cells needed for the
schema check). -/
def dfFull : DataFrame :=
  ⟨required_cols.map (fun c => (c, []))⟩

/-- A two-row frame whose plan_price column is constant (so its correlation
with is_churned is undefined) while every other numeric feature varies. -/
def dfConst : DataFrame :=
  ⟨[("is_churned", [.num 0, .num 1]),
    ("plan_price", [.num 10, .num 10]),
    ("tenure_months", [.num 1, .num 2]),
    ("avg_monthly_logins", [.num 3, .num 4]),
    ("avg_session_minutes", [.num 5, .num 6]),
    ("support_tickets", [.num 0, .num 2]),
    ("billing_issues_count", [.num 0, .num 3]),
    ("customer_lifetime_days", [.num 7, .num 8])]⟩

/-- A small frame fed to the plotting functions. -/
def dfPlots : DataFrame :=
  ⟨[("avg_monthly_logins", [.num 5]),
    ("tenure_months", [.num 10]),
    ("billing_issues_count", [.num 0])]⟩

/-- A row violating date integrity: cancellation day 50 before join day 100. -/
def ceRowV : Row :=
  { ceRowA with
    is_churned := true
    cancellation_date := some 50
    cancellation_reason := some "Too Expensive" }

/-- A row with a nulled price and a valid plan name. -/
def ceRowP : Row :=
  { ceRowA with plan_price := none }

/-- A row with a nulled price and a plan name that is no key of the plan
table even after title-casing. -/
def ceRowG : Row :=
  { ceRowA with plan_name := "Gold", plan_price := none }

/-- Day number of an ISO cell. -/
@[simp] lemma DateVal.day_iso (d : ℤ) : (DateVal.iso d).day = d := rfl

/-- Day number of an MM/DD/YYYY cell. -/
@[simp] lemma DateVal.day_us (d : ℤ) : (DateVal.us d).day = d := rfl

/-- Distribute a conditional increment over the running accumulator. -/
lemma ite_add_shift (P : Prop) [Decidable P] (x y : ℚ) :
    (if P then x + y else x) = x + (if P then y else 0) := by
  split_ifs <;> simp

/-- Distribute a two-branch conditional increment over the running accumulator. -/
lemma ite_ite_add_shift (P Q : Prop) [Decidable P] [Decidable Q] (x y z : ℚ) :
    (if P then x + y else if Q then x + z else x)
      = x + (if P then y else if Q then z else 0) := by
  split_ifs <;> simp

/-- C1: `calculate_churn_probability` equals the additive score of the spec —
base 0.10 plus the six independent increments, clamped at 0.95 — and the
returned value always lies in the interval [0.10, 0.95]. -/
theorem calculate_churn_probability_spec (r : Row) :
    calculate_churn_probability r =
      min ((0.10 : ℚ)
        + (if r.avg_monthly_logins < 3 then 0.35 else if r.avg_monthly_logins < 8 then 0.15 else 0)
        + (if r.plan_name = "Premium" then 0.08 else if r.plan_name = "Standard" then 0.04 else 0)
        + (if r.tenure_months < 6 then 0.20 else if r.tenure_months < 12 then 0.08 else 0)
        + (if r.billing_issues_count > 0 then 0.12 else 0)
        + (if r.age_group = "18-24" ∨ r.age_group = "25-34" then 0.06 else 0)
        + (if r.region = some "International" then 0.10 else 0)) 0.95
    ∧ 0.10 ≤ calculate_churn_probability r
    ∧ calculate_churn_probability r ≤ 0.95 := by
  have hA : (0:ℚ) ≤
      if r.avg_monthly_logins < 3 then 0.35 else if r.avg_monthly_logins < 8 then 0.15 else 0 := by
    split_ifs <;> norm_num
  have hB : (0:ℚ) ≤
      if r.plan_name = "Premium" then 0.08 else if r.plan_name = "Standard" then 0.04 else 0 := by
    split_ifs <;> norm_num
  have hC : (0:ℚ) ≤
      if r.tenure_months < 6 then 0.20 else if r.tenure_months < 12 then 0.08 else 0 := by
    split_ifs <;> norm_num
  have hD : (0:ℚ) ≤ if r.billing_issues_count > 0 then 0.12 else 0 := by
    split_ifs <;> norm_num
  have hE : (0:ℚ) ≤ if r.age_group = "18-24" ∨ r.age_group = "25-34" then 0.06 else 0 := by
    split_ifs <;> norm_num
  have hF : (0:ℚ) ≤ if r.region = some "International" then 0.10 else 0 := by
    split_ifs <;> norm_num
  have key : calculate_churn_probability r =
      min ((0.10 : ℚ)
        + (if r.avg_monthly_logins < 3 then 0.35 else if r.avg_monthly_logins < 8 then 0.15 else 0)
        + (if r.plan_name = "Premium" then 0.08 else if r.plan_name = "Standard" then 0.04 else 0)
        + (if r.tenure_months < 6 then 0.20 else if r.tenure_months < 12 then 0.08 else 0)
        + (if r.billing_issues_count > 0 then 0.12 else 0)
        + (if r.age_group = "18-24" ∨ r.age_group = "25-34" then 0.06 else 0)
        + (if r.region = some "International" then 0.10 else 0)) 0.95 := by
    simp only [calculate_churn_probability]
    rw [ite_add_shift, ite_add_shift, ite_add_shift,
        ite_ite_add_shift, ite_ite_add_shift, ite_ite_add_shift]
  refine ⟨key, ?_, ?_⟩
  · rw [key]
    refine le_min (by linarith) (by norm_num)
  · rw [key]
    exact min_le_right _ _

/-- C2: each record of `generate_customers`: when not churned, both
cancellation fields are absent and the lifetime is the days from join to the
2024-09-30 cutoff; when churned, both fields are present, the cancellation
date lies in the interval from 30 days after join up to
min(join + tenure×30 days, cutoff) — in particular it is at least the join
date — and the lifetime is the days from join to cancellation.  The draw
interval is nonempty for every join date in the sampling window. -/
theorem generate_customers_record_spec
    (i age tickets billing reasonIdx : ℕ) (age_group region plan payment : String)
    (joinDay : ℤ) (logins sess : ℚ) (churned : Bool) (cancelDraw : ℤ) (r : Row)
    (hjoin : joinStartDay ≤ joinDay ∧ joinDay ≤ joinEndDay)
    (hdraw : 0 ≤ cancelDraw ∧
      joinDay + 30 + cancelDraw ≤ min (joinDay + ((cutoffDay - joinDay) / 30) * 30) cutoffDay)
    (hr : r = generate_customer_row i age_group age region plan payment joinDay logins sess
        tickets billing churned cancelDraw reasonIdx) :
    (joinDay + 30 ≤ min (joinDay + ((cutoffDay - joinDay) / 30) * 30) cutoffDay) ∧
    (r.is_churned = false →
      r.cancellation_date = none ∧ r.cancellation_reason = none ∧
      r.customer_lifetime_days = cutoffDay - r.join_date.day) ∧
    (r.is_churned = true →
      ∃ c, r.cancellation_date = some c ∧ r.cancellation_reason.isSome = true ∧
        r.join_date.day ≤ c ∧ r.join_date.day + 30 ≤ c ∧
        c ≤ min (r.join_date.day + r.tenure_months * 30) cutoffDay ∧
        r.customer_lifetime_days = c - r.join_date.day) := by
  subst hr
  refine ⟨?_, ?_, ?_⟩
  · simp only [joinStartDay, joinEndDay, cutoffDay] at hjoin ⊢
    omega
  · intro hchurn
    cases churned with
    | false =>
        simp [generate_customer_row, DateVal.day]
    | true =>
        simp [generate_customer_row] at hchurn
  · intro hchurn
    cases churned with
    | false =>
        simp [generate_customer_row] at hchurn
    | true =>
        refine ⟨joinDay + 30 + cancelDraw, ?_, ?_, ?_, ?_, ?_, ?_⟩ <;>
          simp [generate_customer_row, random_date, DateVal.day, CANCELLATION_REASONS] <;>
          omega

/-- Witness for C2 at concrete draws: customer 1, join day 0 (2021-01-01),
churned, cancellation draw 5, reason index 2. -/
theorem generate_customers_record_witness :
    ((0 : ℤ) + 30 ≤ min ((0 : ℤ) + ((cutoffDay - 0) / 30) * 30) cutoffDay) ∧
    ((generate_customer_row 1 "25-34" 30 "West" "Basic" "PayPal" 0 5 40 0 0 true 5 2).is_churned = false →
      (generate_customer_row 1 "25-34" 30 "West" "Basic" "PayPal" 0 5 40 0 0 true 5 2).cancellation_date = none ∧
      (generate_customer_row 1 "25-34" 30 "West" "Basic" "PayPal" 0 5 40 0 0 true 5 2).cancellation_reason = none ∧
      (generate_customer_row 1 "25-34" 30 "West" "Basic" "PayPal" 0 5 40 0 0 true 5 2).customer_lifetime_days =
        cutoffDay - (generate_customer_row 1 "25-34" 30 "West" "Basic" "PayPal" 0 5 40 0 0 true 5 2).join_date.day) ∧
    ((generate_customer_row 1 "25-34" 30 "West" "Basic" "PayPal" 0 5 40 0 0 true 5 2).is_churned = true →
      ∃ c, (generate_customer_row 1 "25-34" 30 "West" "Basic" "PayPal" 0 5 40 0 0 true 5 2).cancellation_date = some c ∧
        (generate_customer_row 1 "25-34" 30 "West" "Basic" "PayPal" 0 5 40 0 0 true 5 2).cancellation_reason.isSome = true ∧
        (generate_customer_row 1 "25-34" 30 "West" "Basic" "PayPal" 0 5 40 0 0 true 5 2).join_date.day ≤ c ∧
        (generate_customer_row 1 "25-34" 30 "West" "Basic" "PayPal" 0 5 40 0 0 true 5 2).join_date.day + 30 ≤ c ∧
        c ≤ min ((generate_customer_row 1 "25-34" 30 "West" "Basic" "PayPal" 0 5 40 0 0 true 5 2).join_date.day +
          (generate_customer_row 1 "25-34" 30 "West" "Basic" "PayPal" 0 5 40 0 0 true 5 2).tenure_months * 30) cutoffDay ∧
        (generate_customer_row 1 "25-34" 30 "West" "Basic" "PayPal" 0 5 40 0 0 true 5 2).customer_lifetime_days =
          c - (generate_customer_row 1 "25-34" 30 "West" "Basic" "PayPal" 0 5 40 0 0 true 5 2).join_date.day) :=
  generate_customers_record_spec 1 30 0 0 2 "25-34" "West" "Basic" "PayPal" 0 5 40 true 5 _
    (by constructor <;> decide) (by constructor <;> decide) rfl

/-- A Nat below the surrogate range is packed and unpacked exactly. -/
lemma char_toNat_ofNat_valid {n : ℕ} (h : n.isValidChar) : (Char.ofNat n).toNat = n := by
  unfold Char.ofNat
  rw [dif_pos h]
  rfl

/-- Characters with equal code points are equal. -/
lemma char_eq_of_toNat_eq {a b : Char} (h : a.toNat = b.toNat) : a = b := by
  have ha := Char.ofNat_toNat a
  rw [h, Char.ofNat_toNat] at ha
  exact ha.symm

/-- Code point of `Char.toLower`. -/
lemma toNat_toLower (c : Char) :
    c.toLower.toNat = if c.toNat ≥ 65 ∧ c.toNat ≤ 90 then c.toNat + 32 else c.toNat := by
  simp only [Char.toLower]
  split_ifs with h
  · exact char_toNat_ofNat_valid (Or.inl (by omega))
  · rfl

/-- Code point of `Char.toUpper`. -/
lemma toNat_toUpper (c : Char) :
    c.toUpper.toNat = if c.toNat ≥ 97 ∧ c.toNat ≤ 122 then c.toNat - 32 else c.toNat := by
  simp only [Char.toUpper]
  split_ifs with h
  · exact char_toNat_ofNat_valid (Or.inl (by omega))
  · rfl

/-- Upper-casing is idempotent. -/
lemma toUpper_toUpper (c : Char) : c.toUpper.toUpper = c.toUpper := by
  apply char_eq_of_toNat_eq
  rw [toNat_toUpper c.toUpper, toNat_toUpper c]
  split_ifs <;> omega

/-- Lower-casing is idempotent. -/
lemma toLower_toLower (c : Char) : c.toLower.toLower = c.toLower := by
  apply char_eq_of_toNat_eq
  rw [toNat_toLower c.toLower, toNat_toLower c]
  split_ifs <;> omega

/-- Case-mapping preserves casedness. -/
lemma isCased_toUpper (c : Char) : isCased c.toUpper = isCased c := by
  simp only [isCased]
  rw [decide_eq_decide, toNat_toUpper]
  split_ifs <;> omega

/-- Case-mapping preserves casedness. -/
lemma isCased_toLower (c : Char) : isCased c.toLower = isCased c := by
  simp only [isCased]
  rw [decide_eq_decide, toNat_toLower]
  split_ifs <;> omega

/-- The title-casing pass is idempotent. -/
lemma titleAux_idem (l : List Char) : ∀ b, titleAux b (titleAux b l) = titleAux b l := by
  induction l with
  | nil => intro b; rfl
  | cons c cs ih =>
      intro b
      cases b <;>
        simp [titleAux, toUpper_toUpper, toLower_toLower, isCased_toUpper, isCased_toLower, ih]

/-- Python str.title is idempotent. -/
lemma pyTitle_idem (s : String) : pyTitle (pyTitle s) = pyTitle s := by
  show String.mk (titleAux false (titleAux false s.toList)) = String.mk (titleAux false s.toList)
  rw [titleAux_idem]

/-- Field-wise description of the composed per-row cleaning step. -/
lemma normalizeRow_eq (r : Row) : normalizeRow r =
    { r with
      plan_name := pyTitle r.plan_name
      join_date := .iso r.join_date.day
      plan_price := match r.plan_price with
        | none => price_lookup (pyTitle r.plan_name)
        | some p => some p
      region := some (r.region.getD "Unknown")
      is_churned := match r.cancellation_date with
        | some c => if c < r.join_date.day then false else r.is_churned
        | none => r.is_churned
      cancellation_date := match r.cancellation_date with
        | some c => if c < r.join_date.day then none else some c
        | none => none
      cancellation_reason := match r.cancellation_date with
        | some c => if c < r.join_date.day then none else r.cancellation_reason
        | none => r.cancellation_reason } := by
  unfold normalizeRow step2_title step3_dates step4_price step5_region step6_dates
  cases hp : r.plan_price <;> cases hc : r.cancellation_date <;>
    simp only [hp, hc, DateVal.day] <;>
    first
      | rfl
      | (split_ifs <;> rfl)

/-- The composed per-row cleaning step always lands in `NormalRow`. -/
lemma normalizeRow_normal (r : Row) : NormalRow (normalizeRow r) := by
  rw [normalizeRow_eq]
  refine ⟨pyTitle_idem _, rfl, ?_, ⟨_, rfl⟩, ?_⟩
  · cases hp : r.plan_price with
    | none => intro h; exact h
    | some p => intro h; exact absurd h (by simp)
  · intro c
    cases hc : r.cancellation_date with
    | none => intro h; exact absurd h (by simp)
    | some c0 =>
        simp only [DateVal.day]
        split_ifs with hlt
        · intro h; exact absurd h (by simp)
        · intro h
          rw [Option.some_inj.mp h] at hlt
          exact hlt

/-- The composed per-row cleaning step fixes every `NormalRow`. -/
lemma normalizeRow_eq_self {r : Row} (h : NormalRow r) : normalizeRow r = r := by
  obtain ⟨h1, h2, h3, ⟨s, h4⟩, h5⟩ := h
  rw [normalizeRow_eq]
  cases hp : r.plan_price <;> cases hc : r.cancellation_date <;>
    simp only [hp, hc, h1, ← h2, h4, Option.getD_some]
  · rw [h3 hp, ← hp, ← h4, ← hc]
  · simp only [if_neg (h5 _ hc)]
    rw [h3 hp, ← hp, ← h4, ← hc]
  · rw [← hp, ← h4, ← hc]
  · simp only [if_neg (h5 _ hc)]
    rw [← hp, ← h4, ← hc]

/-- The composed per-row cleaning step is idempotent. -/
lemma normalizeRow_idem (r : Row) : normalizeRow (normalizeRow r) = normalizeRow r :=
  normalizeRow_eq_self (normalizeRow_normal r)

/-- Deduplication only keeps rows of the input. -/
lemma mem_of_mem_dedupAux {α : Type} [DecidableEq α] {x : α} :
    ∀ {seen l}, x ∈ dedupAux seen l → x ∈ l := by
  intro seen l
  induction l generalizing seen with
  | nil => intro h; exact absurd h (List.not_mem_nil x)
  | cons r rs ih =>
      intro h
      simp only [dedupAux] at h
      split_ifs at h with hr
      · exact List.mem_cons_of_mem _ (ih h)
      · rcases List.mem_cons.mp h with h | h
        · exact h ▸ List.mem_cons_self _ _
        · exact List.mem_cons_of_mem _ (ih h)

/-- Deduplication fixes lists without duplicates (and disjoint from `seen`). -/
lemma dedupAux_eq_self {α : Type} [DecidableEq α] :
    ∀ (seen : List α) (l : List α), l.Nodup → (∀ x ∈ l, x ∉ seen) → dedupAux seen l = l := by
  intro seen l
  induction l generalizing seen with
  | nil => intro _ _; rfl
  | cons r rs ih =>
      intro hnd hdisj
      have hr : r ∉ seen := hdisj r (List.mem_cons_self _ _)
      simp only [dedupAux, if_neg hr]
      congr 1
      refine ih _ (List.Nodup.of_cons hnd) ?_
      intro x hx
      simp only [List.mem_cons, not_or]
      exact ⟨fun he => (List.nodup_cons.mp hnd).1 (he ▸ hx), hdisj x (List.mem_cons_of_mem _ hx)⟩

/-- A function that fixes every element of a list maps it to itself. -/
lemma map_id_on {α : Type} (f : α → α) :
    ∀ l : List α, (∀ x ∈ l, f x = x) → l.map f = l := by
  intro l
  induction l with
  | nil => intro _; rfl
  | cons x xs ih =>
      intro h
      simp only [List.map_cons, h x (List.mem_cons_self _ _)]
      congr 1
      exact ih fun y hy => h y (List.mem_cons_of_mem _ hy)

/-- Re-cleaning a cleaned table only re-runs the duplicate removal. -/
lemma clean_data_clean_data (t : List Row) :
    clean_data (clean_data t) = drop_duplicates (clean_data t) := by
  show (drop_duplicates (clean_data t)).map normalizeRow = drop_duplicates (clean_data t)
  refine map_id_on _ _ ?_
  intro x hx
  have hx2 : x ∈ clean_data t := mem_of_mem_dedupAux hx
  obtain ⟨y, _, hy⟩ := List.mem_map.mp hx2
  rw [← hy, normalizeRow_idem]

/-- C3 (counterexample): `clean_data` is not idempotent.  On a table holding
a row and a case-folded copy of it — exactly what duplication plus the
case-folding defect produces — the first cleaning normalizes both copies to
the same row but removes duplicates before normalizing, so its output holds
two identical rows and a second cleaning removes one of them. -/
theorem clean_data_not_idempotent :
    clean_data (clean_data ceTable) ≠ clean_data ceTable := by decide

/-- C3 (amended): re-running `clean_data` on its own output is exactly
duplicate removal on that output; it returns the output unchanged precisely
on runs whose output is already duplicate-free (the remaining steps — case,
dates, price, region, date-integrity — are always no-ops on cleaned rows). -/
theorem clean_data_idempotent_on_nodup_output (t : List Row) :
    clean_data (clean_data t) = drop_duplicates (clean_data t) ∧
    ((clean_data t).Nodup → clean_data (clean_data t) = clean_data t) := by
  refine ⟨clean_data_clean_data t, fun hnd => ?_⟩
  rw [clean_data_clean_data t]
  exact dedupAux_eq_self [] _ hnd (fun x _ hx => (List.not_mem_nil x) hx)

/-- Witness for C3 at a one-row table, whose cleaned output has no
duplicates. -/
theorem clean_data_idempotent_witness :
    clean_data (clean_data [ceRowA]) = drop_duplicates (clean_data [ceRowA]) ∧
    clean_data (clean_data [ceRowA]) = clean_data [ceRowA] :=
  ⟨(clean_data_idempotent_on_nodup_output [ceRowA]).1,
   (clean_data_idempotent_on_nodup_output [ceRowA]).2 (by decide)⟩

/-- C5: cleaning step 6 keeps the row count; a row whose cancellation date
precedes its join date keeps its place but has both cancellation fields
nulled and is_churned set false; every other row passes unchanged. -/
theorem clean_step6_validation_spec (t : List Row) :
    (t.map step6_dates).length = t.length ∧
    ∀ r ∈ t,
      (∀ c, r.cancellation_date = some c → c < r.join_date.day →
        step6_dates r =
          { r with cancellation_date := none, is_churned := false, cancellation_reason := none }) ∧
      ((∀ c, r.cancellation_date = some c → ¬ c < r.join_date.day) → step6_dates r = r) := by
  refine ⟨List.length_map t step6_dates, ?_⟩
  intro r _
  constructor
  · intro c hcd hlt
    simp only [step6_dates, hcd]
    rw [if_pos hlt]
  · intro hno
    cases hcd : r.cancellation_date with
    | none => simp only [step6_dates, hcd]
    | some c =>
        simp only [step6_dates, hcd]
        rw [if_neg (hno c hcd)]

/-- Witness for C5: the violating row (cancellation day 50, join day 100)
is repaired in place, and the row count is preserved. -/
theorem clean_step6_validation_witness :
    ([ceRowV].map step6_dates).length = [ceRowV].length ∧
    step6_dates ceRowV =
      { ceRowV with cancellation_date := none, is_churned := false, cancellation_reason := none } :=
  ⟨(clean_step6_validation_spec [ceRowV]).1,
   ((clean_step6_validation_spec [ceRowV]).2 ceRowV (List.mem_cons_self _ _)).1 50 rfl (by decide)⟩

/-- C6: cleaning step 4 fills a null price from the plan lookup when the
plan name is a key, leaves a null price null when it is not (no fallback,
and the step is a total function — nothing is raised), and never touches a
price that is already present. -/
theorem clean_step4_price_fill_spec (r : Row) :
    (r.plan_price = none → ∀ p, price_lookup r.plan_name = some p →
      step4_price r = { r with plan_price := some p }) ∧
    (r.plan_price = none → price_lookup r.plan_name = none → step4_price r = r) ∧
    (∀ p, r.plan_price = some p → step4_price r = r) := by
  refine ⟨?_, ?_, ?_⟩
  · intro hnull p hp
    simp only [step4_price, hnull, hp]
  · intro hnull hp
    simp only [step4_price, hnull, hp]
    rw [← hnull]
  · intro p hp
    simp only [step4_price, hp]

/-- Witness for C6: a nulled Basic price is filled with 9.99; a nulled
price with unknown plan "Gold" stays null; a present price is untouched. -/
theorem clean_step4_price_fill_witness :
    step4_price ceRowP = { ceRowP with plan_price := some (mkRat 999 100) } ∧
    step4_price ceRowG = ceRowG ∧
    step4_price ceRowA = ceRowA :=
  ⟨(clean_step4_price_fill_spec ceRowP).1 rfl (mkRat 999 100) (by decide),
   (clean_step4_price_fill_spec ceRowG).2.1 rfl (by decide),
   (clean_step4_price_fill_spec ceRowA).2.2 (mkRat 999 100) rfl⟩

/-- Every record built by the generator satisfies the `GeneratedRow` shape
(for the draws the generator makes: a plan key, a listed region, a
nonnegative cancellation draw). -/
lemma generate_customer_row_generated
    (i age tickets billing reasonIdx : ℕ) (age_group region plan payment : String)
    (joinDay : ℤ) (logins sess : ℚ) (churned : Bool) (cancelDraw : ℤ)
    (hplan : plan = "Basic" ∨ plan = "Standard" ∨ plan = "Premium")
    (hregion : region ∈ REGIONS) (hdraw : 0 ≤ cancelDraw) :
    GeneratedRow (generate_customer_row i age_group age region plan payment joinDay logins
      sess tickets billing churned cancelDraw reasonIdx) := by
  cases churned with
  | false =>
      refine ⟨hplan, rfl, ⟨region, rfl, hregion⟩, ⟨joinDay, rfl⟩, ?_⟩
      rw [if_neg]
      · exact ⟨rfl, rfl⟩
      · simp [generate_customer_row]
  | true =>
      refine ⟨hplan, rfl, ⟨region, rfl, hregion⟩, ⟨joinDay, rfl⟩, ?_⟩
      rw [if_pos]
      · refine ⟨joinDay + 30 + cancelDraw, _, rfl, rfl, ?_⟩
        show (DateVal.iso joinDay).day + 30 ≤ joinDay + 30 + cancelDraw
        simp only [DateVal.day]
        omega
      · simp [generate_customer_row]

/-- The plan lookup succeeds on each of the three plan names. -/
lemma price_lookup_of_plan {plan : String}
    (hplan : plan = "Basic" ∨ plan = "Standard" ∨ plan = "Premium") :
    ∃ q, price_lookup plan = some q := by
  rcases hplan with h | h | h <;> rw [h] <;> exact ⟨_, rfl⟩

/-- Title-casing undoes the case-folding defect on the three plan names. -/
lemma pyTitle_plan {plan : String} (lc : Bool)
    (hplan : plan = "Basic" ∨ plan = "Standard" ∨ plan = "Premium") :
    pyTitle (if lc then pyLower plan else plan) = plan := by
  rcases hplan with h | h | h <;> rw [h] <;> cases lc <;> simp <;> decide

/-- The day number under a date cell is unchanged by the format defect. -/
lemma corrupt_join_day (g : Row) (lc np nr rf : Bool) :
    (corrupt g lc np nr rf).join_date.day = g.join_date.day := by
  cases rf <;> simp [corrupt, DateVal.day]

/-- Cleaning a defected generated row restores every §3 row invariant. -/
lemma normalizeRow_corrupt (g : Row) (lc np nr rf : Bool) (hg : GeneratedRow g) :
    ((normalizeRow (corrupt g lc np nr rf)).plan_name = "Basic" ∨
      (normalizeRow (corrupt g lc np nr rf)).plan_name = "Standard" ∨
      (normalizeRow (corrupt g lc np nr rf)).plan_name = "Premium") ∧
    (normalizeRow (corrupt g lc np nr rf)).plan_price =
      price_lookup (normalizeRow (corrupt g lc np nr rf)).plan_name ∧
    (∃ s, (normalizeRow (corrupt g lc np nr rf)).region = some s) ∧
    (∀ c, (normalizeRow (corrupt g lc np nr rf)).cancellation_date = some c →
      (normalizeRow (corrupt g lc np nr rf)).join_date.day ≤ c) ∧
    ((normalizeRow (corrupt g lc np nr rf)).is_churned = true ↔
      ((normalizeRow (corrupt g lc np nr rf)).cancellation_date.isSome ∧
        (normalizeRow (corrupt g lc np nr rf)).cancellation_reason.isSome)) := by
  obtain ⟨hplan3, hprice, ⟨s, hreg, hregmem⟩, ⟨j, hjoin⟩, hchurn⟩ := hg
  have hname : pyTitle (corrupt g lc np nr rf).plan_name = g.plan_name := by
    show pyTitle (if lc then pyLower g.plan_name else g.plan_name) = g.plan_name
    exact pyTitle_plan lc hplan3
  have hday : (corrupt g lc np nr rf).join_date.day = j := by
    cases rf <;> simp [corrupt, hjoin]
  have hcanc : (corrupt g lc np nr rf).cancellation_date = g.cancellation_date := rfl
  have hreason : (corrupt g lc np nr rf).cancellation_reason = g.cancellation_reason := rfl
  have hchurnf : (corrupt g lc np nr rf).is_churned = g.is_churned := rfl
  obtain ⟨q, hq⟩ := price_lookup_of_plan hplan3
  have hpfill : (match (corrupt g lc np nr rf).plan_price with
      | none => price_lookup g.plan_name
      | some p => some p) = some q := by
    show (match (if np then none else g.plan_price) with
      | none => price_lookup g.plan_name
      | some p => some p) = some q
    cases np with
    | true => simpa using hq
    | false =>
        rw [hprice, hq]
        simp
  rw [normalizeRow_eq]
  simp only [hname, hcanc, hreason, hchurnf, hday]
  cases hch : g.is_churned with
  | false =>
      rw [hch] at hchurn
      rw [if_neg Bool.false_ne_true] at hchurn
      obtain ⟨hcd, hcr⟩ := hchurn
      simp only [hcd, hcr]
      refine ⟨hplan3, ?_, ⟨_, rfl⟩, ?_, ?_⟩
      · rw [hpfill, hq]
      · intro c hc
        exact absurd hc (by simp)
      · simp [hch]
  | true =>
      rw [hch] at hchurn
      rw [if_pos rfl] at hchurn
      obtain ⟨c, reason, hcd, hcr, hge⟩ := hchurn
      rw [hjoin] at hge
      simp only [DateVal.day_iso] at hge
      have hnotlt : ¬ c < j := by omega
      simp only [hcd, hcr, if_neg hnotlt]
      refine ⟨hplan3, ?_, ⟨_, rfl⟩, ?_, ?_⟩
      · rw [hpfill, hq]
      · intro c1 hc1
        have hc1c : c1 = c := (Option.some_inj.mp hc1).symm
        simp only [DateVal.day_iso]
        omega
      · simp [hch]

/-- The counterexample base row has the generated shape. -/
lemma ceRowA_generated : GeneratedRow ceRowA := by
  refine ⟨Or.inl rfl, by decide, ⟨"West", rfl, by decide⟩, ⟨100, rfl⟩, ?_⟩
  rw [if_neg (by decide)]
  exact ⟨rfl, rfl⟩

/-- Every row of the counterexample table is a defected generated row. -/
lemma ceTable_dirty : ∀ r ∈ ceTable, DirtyOf r := by
  intro r hr
  rcases List.mem_cons.mp hr with h | h
  · exact ⟨ceRowA, false, false, false, false, ceRowA_generated, by rw [h]; decide⟩
  · rcases List.mem_cons.mp h with h2 | h2
    · exact ⟨ceRowA, true, false, false, false, ceRowA_generated, by rw [h2]; decide⟩
    · exact absurd h2 (List.not_mem_nil r)

/-- C4 (counterexample): the cleaned table can contain duplicate rows.  On a
dirty table made of a generated row and its case-folded duplicate (one
duplication defect plus one case defect), duplicate removal runs before case
normalization, so the cleaned output holds two identical rows and violates
the no-duplicates invariant of the claim. -/
theorem clean_data_invariants_counterexample :
    DirtyOf ceRowA ∧ DirtyOf ceRowB ∧ ¬ (clean_data ceTable).Nodup :=
  ⟨ceTable_dirty ceRowA (List.mem_cons_self _ _),
   ceTable_dirty ceRowB (List.mem_cons_of_mem _ (List.mem_cons_self _ _)),
   by decide⟩

/-- C4 (amended): for every table of defected generated rows, each row of
the cleaned table has a valid title-cased plan name, the exact looked-up
price for it, a non-null region, no cancellation before the join, and both
cancellation fields present exactly when the row is churned — but the
cleaned table may still contain duplicate rows (two defected copies of one
generated row can normalize to identical rows after duplicate removal). -/
theorem clean_data_invariants (t : List Row) (h : ∀ r ∈ t, DirtyOf r) :
    ∀ r ∈ clean_data t,
      (r.plan_name = "Basic" ∨ r.plan_name = "Standard" ∨ r.plan_name = "Premium") ∧
      r.plan_price = price_lookup r.plan_name ∧
      (∃ s, r.region = some s) ∧
      (∀ c, r.cancellation_date = some c → r.join_date.day ≤ c) ∧
      (r.is_churned = true ↔ (r.cancellation_date.isSome ∧ r.cancellation_reason.isSome)) := by
  intro r hr
  obtain ⟨y, hy, hnorm⟩ := List.mem_map.mp hr
  obtain ⟨g, lc, np, nr, rf, hg, hcor⟩ := h y (mem_of_mem_dedupAux hy)
  rw [← hnorm, hcor]
  exact normalizeRow_corrupt g lc np nr rf hg

/-- Witness for C4 on the concrete dirty table, instantiated at its first
cleaned row. -/
theorem clean_data_invariants_witness :
    ((normalizeRow ceRowA).plan_name = "Basic" ∨
      (normalizeRow ceRowA).plan_name = "Standard" ∨
      (normalizeRow ceRowA).plan_name = "Premium") ∧
    (normalizeRow ceRowA).plan_price = price_lookup (normalizeRow ceRowA).plan_name ∧
    (∃ s, (normalizeRow ceRowA).region = some s) ∧
    (∀ c, (normalizeRow ceRowA).cancellation_date = some c →
      (normalizeRow ceRowA).join_date.day ≤ c) ∧
    ((normalizeRow ceRowA).is_churned = true ↔
      ((normalizeRow ceRowA).cancellation_date.isSome ∧
        (normalizeRow ceRowA).cancellation_reason.isSome)) :=
  clean_data_invariants ceTable ceTable_dirty (normalizeRow ceRowA) (by decide)

/-- C7: `load_data` fails with a schema error naming exactly the absent
required columns if and only if at least one required column is missing;
with all required columns present it returns the frame unchanged. -/
theorem load_data_schema_spec (df : DataFrame) :
    ((∀ c ∈ required_cols, c ∈ colNames df) → load_data df = .ok df) ∧
    ((∃ c ∈ required_cols, c ∉ colNames df) →
      ∃ m, load_data df = .error m ∧ m ≠ [] ∧
        ∀ c, c ∈ m ↔ (c ∈ required_cols ∧ c ∉ colNames df)) ∧
    (∀ m, load_data df = .error m → ∃ c ∈ required_cols, c ∉ colNames df) := by
  refine ⟨?_, ?_, ?_⟩
  · intro h
    have hnil : required_cols.filter (fun c => decide (c ∉ colNames df)) = [] := by
      rw [List.filter_eq_nil_iff]
      intro c hc
      simpa using h c hc
    simp only [load_data, hnil, List.isEmpty_nil, if_true]
  · rintro ⟨c, hc, hnc⟩
    have hmem : c ∈ required_cols.filter (fun c => decide (c ∉ colNames df)) :=
      List.mem_filter.mpr ⟨hc, by simpa using hnc⟩
    have hne : ¬ (required_cols.filter (fun c => decide (c ∉ colNames df))).isEmpty := by
      rw [List.isEmpty_iff]
      exact fun hnil => (List.not_mem_nil c) (hnil ▸ hmem)
    refine ⟨required_cols.filter (fun c => decide (c ∉ colNames df)), ?_, ?_, ?_⟩
    · simp only [load_data]
      rw [if_neg hne]
    · exact fun hnil => (List.not_mem_nil c) (hnil ▸ hmem)
    · intro c1
      rw [List.mem_filter]
      simp
  · intro m hm
    by_cases hnil : (required_cols.filter (fun c => decide (c ∉ colNames df))).isEmpty
    · simp only [load_data] at hm
      rw [if_pos hnil] at hm
      exact absurd hm (by simp)
    · rw [List.isEmpty_iff] at hnil
      obtain ⟨c, hc⟩ := List.exists_mem_of_ne_nil _ hnil
      have := List.mem_filter.mp hc
      exact ⟨c, this.1, by simpa using this.2⟩

/-- Witness for C7: the full 11-column frame passes unchanged; the empty
frame fails with every required column reported missing. -/
theorem load_data_schema_witness :
    load_data dfFull = .ok dfFull ∧
    ∃ m, load_data (DataFrame.mk []) = .error m ∧ m ≠ [] ∧
      ∀ c, c ∈ m ↔ (c ∈ required_cols ∧ c ∉ colNames (DataFrame.mk [])) :=
  ⟨(load_data_schema_spec dfFull).1 (by decide),
   (load_data_schema_spec ⟨[]⟩).2.1 ⟨"customer_id", by decide, by decide⟩⟩

/-- Insertion permutes with consing. -/
lemma insertDesc_perm (p : String × Option ℚ) :
    ∀ l, (insertDesc p l).Perm (p :: l) := by
  intro l
  induction l with
  | nil => exact List.Perm.refl _
  | cons q qs ih =>
      simp only [insertDesc]
      split_ifs with h
      · exact List.Perm.refl _
      · exact (ih.cons q).trans (List.Perm.swap p q qs)

/-- The insertion sort permutes its input. -/
lemma sortDesc_perm : ∀ l, (sortDesc l).Perm l := by
  intro l
  induction l with
  | nil => exact List.Perm.refl _
  | cons p ps ih => exact (insertDesc_perm p (sortDesc ps)).trans (ih.cons p)

/-- Membership through insertion. -/
lemma mem_insertDesc {x p : String × Option ℚ} {l : List (String × Option ℚ)} :
    x ∈ insertDesc p l ↔ x = p ∨ x ∈ l := by
  rw [(insertDesc_perm p l).mem_iff, List.mem_cons]

/-- Membership through sorting. -/
lemma mem_sortDesc {x : String × Option ℚ} {l : List (String × Option ℚ)} :
    x ∈ sortDesc l ↔ x ∈ l :=
  (sortDesc_perm l).mem_iff

/-- The ranking is a permutation of the correlation series. -/
lemma ranking_perm (df : DataFrame) : (ranking df).Perm (correlations df) := by
  unfold ranking
  exact ((sortDesc_perm _).append (List.Perm.refl _)).trans
    (List.filter_append_perm _ (correlations df))

/-- Introduce `rankRel` between two defined entries. -/
lemma rankRel_of_defined {p q : String × Option ℚ}
    (hp : p.2.isSome = true) (hq : q.2.isSome = true)
    (h : rankKey q < rankKey p ∨ (rankKey q = rankKey p ∧ idxLt p q)) : rankRel p q := by
  unfold rankRel
  rw [if_pos hp, if_pos hq]
  exact h

/-- Destruct `rankRel` between two defined entries. -/
lemma rankRel_defined_dest {p q : String × Option ℚ}
    (hp : p.2.isSome = true) (hq : q.2.isSome = true) (h : rankRel p q) :
    rankKey q < rankKey p ∨ (rankKey q = rankKey p ∧ idxLt p q) := by
  unfold rankRel at h
  rw [if_pos hp, if_pos hq] at h
  exact h

/-- Inserting an element of smaller input index into a sorted list of
defined entries keeps the list sorted and stable. -/
lemma insertDesc_pairwise (p : String × Option ℚ) (hp : p.2.isSome = true) :
    ∀ l, (∀ q ∈ l, q.2.isSome = true) → l.Pairwise rankRel →
      (∀ q ∈ l, idxLt p q) → (insertDesc p l).Pairwise rankRel := by
  intro l
  induction l with
  | nil => intro _ _ _; exact List.pairwise_singleton _ _
  | cons q qs ih =>
      intro hdef hpair hidx
      have hqdef : q.2.isSome = true := hdef q (List.mem_cons_self _ _)
      simp only [insertDesc]
      split_ifs with hkey
      · refine List.Pairwise.cons ?_ hpair
        intro x hx
        have hxdef : x.2.isSome = true := hdef x hx
        rcases List.mem_cons.mp hx with rfl | hxqs
        · apply rankRel_of_defined hp hxdef
          rcases lt_or_eq_of_le hkey with h | h
          · exact Or.inl h
          · exact Or.inr ⟨h, hidx _ (List.mem_cons_self _ _)⟩
        · have hqx := (List.pairwise_cons.mp hpair).1 x hxqs
          have hqxk := rankRel_defined_dest hqdef hxdef hqx
          apply rankRel_of_defined hp hxdef
          rcases hqxk with h | ⟨heq, _⟩
          · exact Or.inl (lt_of_lt_of_le h hkey)
          · rcases lt_or_eq_of_le hkey with h2 | h2
            · exact Or.inl (heq ▸ h2)
            · exact Or.inr ⟨heq.trans h2, hidx x hx⟩
      · refine List.Pairwise.cons ?_
          (ih (fun x hx => hdef x (List.mem_cons_of_mem _ hx))
            (List.pairwise_cons.mp hpair).2
            (fun x hx => hidx x (List.mem_cons_of_mem _ hx)))
        intro x hx
        rcases mem_insertDesc.mp hx with rfl | hxqs
        · exact rankRel_of_defined hqdef hp (Or.inl (not_le.mp hkey))
        · exact (List.pairwise_cons.mp hpair).1 x hxqs

/-- Sorting a list of defined entries given in input order produces a
sorted, stable list. -/
lemma sortDesc_pairwise : ∀ l, (∀ q ∈ l, q.2.isSome = true) → l.Pairwise idxLt →
    (sortDesc l).Pairwise rankRel := by
  intro l
  induction l with
  | nil => intro _ _; exact List.Pairwise.nil
  | cons p ps ih =>
      intro hdef hpair
      obtain ⟨hhead, htail⟩ := List.pairwise_cons.mp hpair
      exact insertDesc_pairwise p (hdef p (List.mem_cons_self _ _)) (sortDesc ps)
        (fun x hx => hdef x (List.mem_cons_of_mem _ (mem_sortDesc.mp hx)))
        (ih (fun x hx => hdef x (List.mem_cons_of_mem _ hx)) htail)
        (fun x hx => hhead x (mem_sortDesc.mp hx))

/-- The correlation series lists the features in their fixed input order. -/
lemma correlations_pairwise_idx (df : DataFrame) : (correlations df).Pairwise idxLt := by
  unfold correlations
  rw [List.pairwise_map]
  have h : numeric_cols.Pairwise
      (fun a b => numeric_cols.indexOf a < numeric_cols.indexOf b) := by decide
  exact h.imp (fun hab => hab)

/-- The full ranking — sorted defined entries, then NaNs — is ordered by
`rankRel` throughout. -/
lemma ranking_pairwise (df : DataFrame) : (ranking df).Pairwise rankRel := by
  unfold ranking
  rw [List.pairwise_append]
  refine ⟨?_, ?_, ?_⟩
  · exact sortDesc_pairwise _ (fun x hx => (List.mem_filter.mp hx).2)
      ((correlations_pairwise_idx df).filter _)
  · refine List.Pairwise.imp_of_mem ?_
      ((correlations_pairwise_idx df).filter _)
    intro a b ha hb hab
    have ha2 : ¬ a.2.isSome = true := by simpa using (List.mem_filter.mp ha).2
    have hb2 : ¬ b.2.isSome = true := by simpa using (List.mem_filter.mp hb).2
    unfold rankRel
    rw [if_neg ha2, if_neg hb2]
    exact hab
  · intro a ha b hb
    have ha2 : a.2.isSome = true := (List.mem_filter.mp (mem_sortDesc.mp ha)).2
    have hb2 : ¬ b.2.isSome = true := by simpa using (List.mem_filter.mp hb).2
    unfold rankRel
    rw [if_pos ha2, if_neg hb2]
    trivial

/-- C8: `correlation_analysis` produces one Pearson correlation against
is_churned per numeric feature, in the fixed 7-feature order, and its
ranking is a permutation of those entries that descends in absolute
correlation, breaking exact ties by the features' input order (NaN entries,
if any, go last in input order). -/
theorem correlation_analysis_spec (df : DataFrame) :
    correlations df = numeric_cols.map (fun c => (c, corrWithChurn df c)) ∧
    (ranking df).Perm (correlations df) ∧
    (ranking df).Pairwise rankRel :=
  ⟨rfl, ranking_perm df, ranking_pairwise df⟩

/-- The scaled variance of a constant list vanishes. -/
lemma varN_replicate (n : ℕ) (k : ℚ) : varN (List.replicate n k) = 0 := by
  unfold varN
  simp only [List.length_replicate, List.map_replicate, List.sum_replicate, nsmul_eq_mul]
  ring

/-- An all-constant column reads back as a constant numeric list. -/
lemma numsOf_constant {vs : List Val} {k : ℚ} (h : ∀ v ∈ vs, v = Val.num k) :
    numsOf vs = List.replicate vs.length k := by
  induction vs with
  | nil => rfl
  | cons v vs ih =>
      have hv : v = Val.num k := h v (List.mem_cons_self _ _)
      have ih2 := ih (fun x hx => h x (List.mem_cons_of_mem _ hx))
      rw [hv]
      show k :: numsOf vs = List.replicate (vs.length + 1) k
      rw [ih2, List.replicate_succ]

/-- A feature constant across all rows has an undefined (NaN) correlation,
yet stays in the correlation series and in the ranking, which keeps all 7
features. -/
lemma constant_feature_ranked (df : DataFrame) (c : String) (k : ℚ)
    (hc : c ∈ numeric_cols) (hconst : ∀ v ∈ colValues df c, v = Val.num k) :
    corrWithChurn df c = none ∧
    (c, (none : Option ℚ)) ∈ ranking df ∧
    (ranking df).length = numeric_cols.length := by
  have hnan : corrWithChurn df c = none := by
    unfold corrWithChurn corrRep
    rw [if_pos]
    exact Or.inl (by rw [numsOf_constant hconst, varN_replicate])
  refine ⟨hnan, ?_, ?_⟩
  · rw [(ranking_perm df).mem_iff]
    have : (c, corrWithChurn df c) ∈ correlations df :=
      List.mem_map.mpr ⟨c, hc, rfl⟩
    rwa [hnan] at this
  · rw [(ranking_perm df).length_eq]
    exact List.length_map numeric_cols _

/-- C9 (counterexample): on a frame whose plan_price column is constant, the
correlation against is_churned is undefined (NaN, embedded as `none`), yet
`correlation_analysis` keeps the feature: the pair (plan_price, NaN) appears
in the ranking, which still lists all 7 features — nothing is excluded and
the output type carries no flag. -/
theorem correlation_constant_counterexample :
    corrWithChurn dfConst "plan_price" = none ∧
    ("plan_price", (none : Option ℚ)) ∈ ranking dfConst ∧
    (ranking dfConst).length = numeric_cols.length :=
  constant_feature_ranked dfConst "plan_price" 10 (by decide) (by decide)

/-- C9 (amended): a feature constant across all rows gets an undefined (NaN)
correlation with is_churned, and `correlation_analysis` neither excludes nor
flags it: the feature remains in the ranked output (`sort_values` merely
places the NaN entry last), which keeps all 7 features. -/
theorem correlation_constant_feature (df : DataFrame) (c : String) (k : ℚ)
    (hc : c ∈ numeric_cols) (hconst : ∀ v ∈ colValues df c, v = Val.num k) :
    corrWithChurn df c = none ∧
    (c, (none : Option ℚ)) ∈ ranking df ∧
    (ranking df).length = numeric_cols.length :=
  constant_feature_ranked df c k hc hconst

/-- Witness for C9: the amended statement instantiated at the frame with the
constant plan_price column. -/
theorem correlation_constant_feature_witness :
    corrWithChurn dfConst "plan_price" = none ∧
    ("plan_price", (none : Option ℚ)) ∈ ranking dfConst ∧
    (ranking dfConst).length = numeric_cols.length :=
  correlation_constant_feature dfConst "plan_price" 10 (by decide) (by decide)

/-- Column labels after a pandas column assignment. -/
lemma colNames_setCol (df : DataFrame) (n : String) (vs : List Val) :
    colNames (setCol df n vs) =
      if (colNames df).contains n then colNames df else colNames df ++ [n] := by
  unfold setCol colNames
  split_ifs with h
  · show (df.cols.map _).map Prod.fst = df.cols.map Prod.fst
    rw [List.map_map]
    apply List.map_congr_left
    intro p _
    show (if p.1 = n then (p.1, vs) else p).1 = p.1
    split_ifs <;> rfl
  · show (df.cols ++ [(n, vs)]).map Prod.fst = df.cols.map Prod.fst ++ [n]
    rw [List.map_append]
    rfl

/-- A column whose label differs from the assigned one is untouched. -/
lemma mem_setCol_of_ne {df : DataFrame} {n : String} {vs : List Val}
    {p : String × List Val} (hne : p.1 ≠ n) :
    p ∈ (setCol df n vs).cols ↔ p ∈ df.cols := by
  unfold setCol
  split_ifs with h
  · show p ∈ df.cols.map _ ↔ p ∈ df.cols
    constructor
    · intro hp
      obtain ⟨q, hq, hfq⟩ := List.mem_map.mp hp
      by_cases hq1 : q.1 = n
      · rw [if_pos hq1] at hfq
        exact absurd (by rw [← hfq]; exact hq1) hne
      · rw [if_neg hq1] at hfq
        rwa [← hfq]
    · intro hp
      exact List.mem_map.mpr ⟨p, hp, if_neg hne⟩
  · show p ∈ df.cols ++ [(n, vs)] ↔ p ∈ df.cols
    rw [List.mem_append]
    constructor
    · rintro (hp | hp)
      · exact hp
      · rw [List.mem_singleton] at hp
        exact absurd (by rw [hp]) hne
    · exact Or.inl

/-- The assigned label is present afterwards. -/
lemma name_mem_setCol_self (df : DataFrame) (n : String) (vs : List Val) :
    n ∈ colNames (setCol df n vs) := by
  rw [colNames_setCol]
  split_ifs with h
  · simpa using h
  · exact List.mem_append_right _ (List.mem_singleton.mpr rfl)

/-- Column assignment never removes a label. -/
lemma name_mem_setCol_mono {df : DataFrame} {m : String} (n : String) (vs : List Val)
    (h : m ∈ colNames df) : m ∈ colNames (setCol df n vs) := by
  rw [colNames_setCol]
  split_ifs
  · exact h
  · exact List.mem_append_left _ h

/-- C10 (counterexample): `plot_top3_factors` does modify the customer
table — it writes the three tier columns into the frame in place, so the
frame after the call differs from the frame before it. -/
theorem plot_top3_factors_mutates :
    plot_top3_factors dfPlots ≠ dfPlots := by decide

/-- C10 (amended): after cleaning, print_summary, correlation_analysis, the
heatmap, plan, and region plots and the text report leave the table
untouched; but `plot_top3_factors` adds the derived login_tier, tenure_tier
and billing_tier columns and `plot_churn_by_engagement` adds login_bin —
every column with any other label is carried over unchanged, in both
directions. -/
theorem analysis_frame_effects (df : DataFrame) :
    print_summary_df df = df ∧
    correlation_analysis_df df = df ∧
    plot_correlation_heatmap_df df = df ∧
    plot_churn_by_plan_df df = df ∧
    plot_churn_by_region_df df = df ∧
    generate_text_report_df df = df ∧
    (∀ p ∈ df.cols, p.1 ≠ "login_tier" → p.1 ≠ "tenure_tier" → p.1 ≠ "billing_tier" →
      p ∈ (plot_top3_factors df).cols) ∧
    (∀ p ∈ (plot_top3_factors df).cols,
      p.1 ≠ "login_tier" → p.1 ≠ "tenure_tier" → p.1 ≠ "billing_tier" → p ∈ df.cols) ∧
    "login_tier" ∈ colNames (plot_top3_factors df) ∧
    "tenure_tier" ∈ colNames (plot_top3_factors df) ∧
    "billing_tier" ∈ colNames (plot_top3_factors df) ∧
    (∀ p ∈ df.cols, p.1 ≠ "login_bin" → p ∈ (plot_churn_by_engagement df).cols) ∧
    (∀ p ∈ (plot_churn_by_engagement df).cols, p.1 ≠ "login_bin" → p ∈ df.cols) ∧
    "login_bin" ∈ colNames (plot_churn_by_engagement df) := by
  refine ⟨rfl, rfl, rfl, rfl, rfl, rfl, ?_, ?_, ?_, ?_, ?_, ?_, ?_, ?_⟩
  · intro p hp h1 h2 h3
    exact (mem_setCol_of_ne h3).mpr ((mem_setCol_of_ne h2).mpr ((mem_setCol_of_ne h1).mpr hp))
  · intro p hp h1 h2 h3
    exact (mem_setCol_of_ne h1).mp ((mem_setCol_of_ne h2).mp ((mem_setCol_of_ne h3).mp hp))
  · exact name_mem_setCol_mono _ _ (name_mem_setCol_mono _ _ (name_mem_setCol_self _ _ _))
  · exact name_mem_setCol_mono _ _ (name_mem_setCol_self _ _ _)
  · exact name_mem_setCol_self _ _ _
  · intro p hp h1
    exact (mem_setCol_of_ne h1).mpr hp
  · intro p hp h1
    exact (mem_setCol_of_ne h1).mp hp
  · exact name_mem_setCol_self _ _ _

/-- Witness for C10: on the concrete plotting frame, the untouched
avg_monthly_logins column is carried over and the new columns appear. -/
theorem analysis_frame_effects_witness :
    ("avg_monthly_logins", [Val.num 5]) ∈ (plot_top3_factors dfPlots).cols ∧
    "login_tier" ∈ colNames (plot_top3_factors dfPlots) ∧
    "login_bin" ∈ colNames (plot_churn_by_engagement dfPlots) :=
  ⟨(analysis_frame_effects dfPlots).2.2.2.2.2.2.1 ("avg_monthly_logins", [Val.num 5])
      (by decide) (by decide) (by decide) (by decide),
   (analysis_frame_effects dfPlots).2.2.2.2.2.2.2.2.1,
   (analysis_frame_effects dfPlots).2.2.2.2.2.2.2.2.2.2.2.2.2⟩

end Churn
